import Mathlib

/-
Shallow embedding of the sensitivity/adjoint ODE orchestration layer of
sunode (src/sunode/solver.py and src/sunode/wrappers/as_theano.py).

Machine floating-point values are modelled as rationals: every claim below
is a control-flow or data-flow claim, not a claim about rounding.  The NaN
sentinel the autodiff wrapper writes on a caught solver failure is modelled
as the `none` value of `Option ℚ` (ordinary values are `some`).  The
SUNDIALS integration engine is external to the repository; it is modelled
as an oracle: a function from the call counter (and, for the backward
solver, the requested target time) to a step outcome, which bundles the
return code with the contents the engine's read-back calls deposit into the
solver's buffers.  The unbounded python `while` retry loop is embedded with
an explicit fuel parameter; a `none` result means the loop did not
terminate within `fuel` engine calls.
-/

/-- CV_TOO_MUCH_WORK, the retryable resource-exhaustion return code of the
CVODES engine (numeric value -1 in sundials). -/
def TOO_MUCH_WORK : Int := -1

/-- Errors raised as python `SolverError`, tagged by raise site:
`badReturnCode` is the forward-loop raise (solver.py lines 355-356),
`solveFailedBetween` the backward fatal-step raise (lines 579-580), and
`tooManyRetries` the retry-budget raise (line 582).  The first two carry
the engine's symbolic status name (the `ERRORS[retval]` lookup) and the
numeric return code. -/
inductive SolverErr
  | badReturnCode (name : String) (code : Int)
  | solveFailedBetween (tUpper tLower : ℚ) (name : String) (code : Int)
  | tooManyRetries (tUpper tLower : ℚ)
deriving DecidableEq

/-- Python-level error classes distinguished by the wrappers: `ValueError`
is never caught by the `except SolverError` handlers. -/
inductive PyErr
  | valueError
  | solverError (e : SolverErr)
deriving DecidableEq

/-- A tolerance argument after `np.array`: ndim 0 (scalar) or ndim 1
(vector).  Arguments of higher dimension are not representable here; the
source's final `else` branch for them raises ValueError. -/
inductive Tol
  | scalar (x : ℚ)
  | vector (xs : List ℚ)
deriving DecidableEq

def Tol.ndim : Tol → Nat
  | .scalar _ => 0
  | .vector _ => 1

/-- Which CVODES tolerance-setting call `_set_tolerances` issues, with the
arguments passed (rtol first, as in the C calls). -/
inductive TolCall
  | vv (rtol atol : List ℚ)
  | sv (rtol : ℚ) (atol : List ℚ)
  | vs (rtol : List ℚ) (atol : ℚ)
  | ss (rtol atol : ℚ)
deriving DecidableEq

/-- Solver._set_tolerances (solver.py lines 240-258): all four scalar and
vector combinations of atol/rtol dispatch to a tolerance call. -/
def Solver.set_tolerances (atol rtol : Tol) : Except PyErr TolCall :=
  match atol, rtol with
  | .vector a, .vector r => .ok (.vv r a)
  | .vector a, .scalar r => .ok (.sv r a)
  | .scalar a, .vector r => .ok (.vs r a)
  | .scalar a, .scalar r => .ok (.ss r a)

/-- AdjointSolver._set_tolerances (solver.py lines 445-456): only
`atol.ndim == 1 and rtol.ndim == 0` and `atol.ndim == 0 and rtol.ndim == 0`
are dispatched; everything else raises `ValueError('Invalid tolerance.')`. -/
def AdjointSolver.set_tolerances (atol rtol : Tol) : Except PyErr TolCall :=
  match atol, rtol with
  | .vector a, .scalar r => .ok (.sv r a)
  | .scalar a, .scalar r => .ok (.ss r a)
  | _, _ => .error .valueError

-- Decidable equality for Except results, used to evaluate concrete runs.
deriving instance DecidableEq for Except

/-- Outcome of a single CVode/CVodeF call, as the solver observes it: the
return code, the state-buffer and time-pointer contents after the call, and
the sensitivity-buffer contents a following CVodeGetSens would read. -/
structure FStep where
  code : Int
  y : List ℚ
  t : ℚ
  sens : List (List ℚ)
deriving DecidableEq

/-- Forward engine oracle: the outcome of the k-th stepping call issued
during one solve. -/
def FEng : Type := Nat → FStep

/-- Engine-facing actions a forward solve performs, in program order. -/
inductive FEvent
  | reinit (t : ℚ) (y : List ℚ)
  | adjReinit
  | sensReinit (sens : List (List ℚ))
  | step (t : ℚ)
  | getSens
deriving DecidableEq

/-- Result of the stepping while-loop: the loop either breaks out of
retrying (ok) or raises SolverError (err); either way it reports the last
engine outcome, the advanced call counter and the extended event log. -/
inductive StepRes
  | ok (r : FStep) (k : Nat) (evs : List FEvent)
  | err (e : SolverErr) (r : FStep) (k : Nat) (evs : List FEvent)
deriving DecidableEq

/-- The stepping while-loop shared verbatim by Solver.solve (solver.py
lines 351-357) and AdjointSolver.solve_forward (lines 529-535): reissue the
same step request while the engine returns CV_TOO_MUCH_WORK; return code 0
exits the loop; any other code raises SolverError with the symbolic status
and numeric code.  `fuel` bounds the unbounded python loop, `k` is the call
counter and `evs` the event log so far. -/
def stepLoop (eng : FEng) (ERRORS : Int → String) (t : ℚ) :
    Nat → Nat → List FEvent → Option StepRes
  | 0, _, _ => none
  | fuel + 1, k, evs =>
    let r := eng k
    let evs' := evs ++ [FEvent.step t]
    if r.code = TOO_MUCH_WORK then
      stepLoop eng ERRORS t fuel (k + 1) evs'
    else if r.code = 0 then
      some (.ok r (k + 1) evs')
    else
      some (.err (.badReturnCode (ERRORS r.code) r.code) r (k + 1) evs')

/-- Running state of the output-time loop of a forward solve: the two
output buffers, the solver instance's state and sensitivity buffers, the
engine call counter and the event log. -/
structure FLoopSt where
  yOut : List (List ℚ)
  sensOut : List (List (List ℚ))
  stateBuf : List ℚ
  sensBufs : List (List ℚ)
  k : Nat
  events : List FEvent
deriving DecidableEq

/-- The `for i, t in enumerate(tvals)` loop of Solver.solve (solver.py
lines 344-362).  With `computeSens = false` it is also the loop of
AdjointSolver.solve_forward (lines 524-535), whose body is textually
identical except that it steps with CVodeF instead of CVode.  When
`t == t0` the code writes `y_out[0, :] = y0` (index 0 in the source, not
index i) and, with sensitivities, `sens_out[0, :, :] = sens0`, and issues
no engine call.  Otherwise it runs the retry loop and copies the reached
state (and, with sensitivities, the CVodeGetSens read-back) into row i. -/
def runTimes (eng : FEng) (ERRORS : Int → String) (fuel : Nat) (computeSens : Bool)
    (t0 : ℚ) (y0 : List ℚ) (sens0 : List (List ℚ)) :
    List ℚ → Nat → FLoopSt → Option (FLoopSt × Option SolverErr)
  | [], _, s => some (s, none)
  | t :: rest, i, s =>
    if t = t0 then
      let s' := { s with
        yOut := s.yOut.set 0 y0,
        sensOut := if computeSens then s.sensOut.set 0 sens0 else s.sensOut }
      runTimes eng ERRORS fuel computeSens t0 y0 sens0 rest (i + 1) s'
    else
      match stepLoop eng ERRORS t fuel s.k s.events with
      | none => none
      | some (.err e r k' evs') =>
        some ({ s with stateBuf := r.y, k := k', events := evs' }, some e)
      | some (.ok r k' evs') =>
        let s' := { s with
          yOut := s.yOut.set i r.y,
          stateBuf := r.y,
          k := k',
          events := evs' }
        if computeSens then
          let s'' := { s' with
            sensOut := s'.sensOut.set i r.sens,
            sensBufs := r.sens,
            events := s'.events ++ [FEvent.getSens] }
          runTimes eng ERRORS fuel computeSens t0 y0 sens0 rest (i + 1) s''
        else
          runTimes eng ERRORS fuel computeSens t0 y0 sens0 rest (i + 1) s'

/-- Observable result of Solver.solve: the python-level outcome (`err` is
the raised exception if any) together with the final contents of the output
buffers, the solver instance's buffers and the engine interaction log. -/
structure FRun where
  err : Option PyErr
  yOut : List (List ℚ)
  sensOut : List (List (List ℚ))
  stateBuf : List ℚ
  sensBufs : List (List ℚ)
  events : List FEvent
deriving DecidableEq

/-- Solver.solve (solver.py lines 314-362).  The ValueError guard for
missing sens0/sens_out runs before any buffer mutation or engine call; then
the sensitivity buffers are loaded from sens0 (when computing
sensitivities), the state buffer from y0, CVodeReInit and (when computing
sensitivities) CVodeSensReInit are issued, and the output-time loop runs.
`stateBuf0`/`sensBufs0` are the instance buffer contents before the call;
`yOut0`/`sensOut0` the caller-supplied output buffers.  A `none` result
means a stepping while-loop did not terminate within `fuel`. -/
def Solver.solve (eng : FEng) (ERRORS : Int → String) (fuel : Nat)
    (computeSens : Bool) (t0 : ℚ) (tvals : List ℚ) (y0 : List ℚ)
    (yOut0 : List (List ℚ)) (sens0 : Option (List (List ℚ)))
    (sensOut0 : Option (List (List (List ℚ))))
    (stateBuf0 : List ℚ) (sensBufs0 : List (List ℚ)) : Option FRun :=
  if computeSens ∧ (sens0 = none ∨ sensOut0 = none) then
    some ⟨some .valueError, yOut0, sensOut0.getD [], stateBuf0, sensBufs0, []⟩
  else
    let s0 := sens0.getD []
    let sensBufs1 := if computeSens then s0 else sensBufs0
    let evs0 := FEvent.reinit t0 y0 ::
      (if computeSens then [FEvent.sensReinit s0] else [])
    match runTimes eng ERRORS fuel computeSens t0 y0 s0 tvals 0
        ⟨yOut0, sensOut0.getD [], y0, sensBufs1, 0, evs0⟩ with
    | none => none
    | some (s, some e) =>
      some ⟨some (.solverError e), s.yOut, s.sensOut, s.stateBuf, s.sensBufs, s.events⟩
    | some (s, none) =>
      some ⟨none, s.yOut, s.sensOut, s.stateBuf, s.sensBufs, s.events⟩

/-- Observable result of AdjointSolver.solve_forward: raised SolverError if
any, the trajectory buffer, the state buffer and the event log. -/
structure AdjFRun where
  err : Option SolverErr
  yOut : List (List ℚ)
  stateBuf : List ℚ
  events : List FEvent
deriving DecidableEq

/-- AdjointSolver.solve_forward (solver.py lines 503-535): load the state
buffer from y0, issue CVodeReInit and CVodeAdjReInit, then run the same
output-time loop as Solver.solve (without sensitivities), stepping with
CVodeF so the engine retains checkpoints. -/
def AdjointSolver.solve_forward (eng : FEng) (ERRORS : Int → String) (fuel : Nat)
    (t0 : ℚ) (tvals : List ℚ) (y0 : List ℚ) (yOut0 : List (List ℚ)) :
    Option AdjFRun :=
  match runTimes eng ERRORS fuel false t0 y0 [] tvals 0
      ⟨yOut0, [], y0, [], 0, [FEvent.reinit t0 y0, FEvent.adjReinit]⟩ with
  | none => none
  | some (s, e) => some ⟨e, s.yOut, s.stateBuf, s.events⟩

/-- Outcome of one backward sub-interval session, as observed through the
engine: the return codes of the successive CVodeB calls of the retry loop,
and the time, adjoint state and quadrature the CVodeGetB/CVodeGetQuadB
read-backs deposit afterwards. -/
structure BOut where
  code : Nat → Int
  tReached : ℚ
  lamda : List ℚ
  quad : List ℚ

/-- Backward engine oracle, indexed by the number of sub-interval sessions
already run on this solve and by the requested target time t_lower. -/
def BEng : Type := Nat → ℚ → BOut

/-- Engine- and buffer-facing actions solve_backward performs, in program
order.  `zeroBuffers` is the triple buffer zeroing of solver.py lines
557-559; the reinit events record the running values handed back to the
engine. -/
inductive BEvent
  | zeroBuffers
  | reinitB (tUpper : ℚ) (lamda : List ℚ)
  | quadReinitB (quad : List ℚ)
  | stepB (tLower : ℚ)
  | getB
  | getQuadB
deriving DecidableEq

/-- Exceptions escaping AdjointSolver.solve_backward: a raised SolverError,
or the AssertionError of `assert time_p[0] == t_lower` (solver.py line
587), which is not a SolverError. -/
inductive BackErr
  | solver (e : SolverErr)
  | assertion (got expected : ℚ)
deriving DecidableEq

/-- Running state of the backward sub-interval loop: the adjoint state
buffer (state_data of _state_bufferB), the two quadrature buffers
(quad_data and quad_out_data), the engine session counter, the optional
per-time snapshot buffers and the event log. -/
structure BST where
  lamda : List ℚ
  quad : List ℚ
  quadOut : List ℚ
  engIdx : Nat
  lamdaAll : Option (List (List ℚ))
  quadAll : Option (List (List ℚ))
  events : List BEvent
deriving DecidableEq

/-- Result of the `for retry in range(max_retries)` loop (solver.py lines
573-582): break on code 0 (`success`, reporting the number of CVodeB calls
made), raise on any code other than CV_TOO_MUCH_WORK (`fatal`), and fall
through to the for-else retry-budget raise when all max_retries calls
returned CV_TOO_MUCH_WORK (`exhausted`). -/
inductive BLoopRes
  | success (calls : Nat)
  | fatal (code : Int) (calls : Nat)
  | exhausted
deriving DecidableEq

/-- The CVodeB retry loop of solve_backward, mirroring
`for retry in range(max_retries)` with its for-else clause.  `i` is the
index of the next CVodeB call within this sub-interval session. -/
def cvodeBLoop (code : Nat → Int) : Nat → Nat → BLoopRes
  | 0, _ => .exhausted
  | n + 1, i =>
    if code i = 0 then .success (i + 1)
    else if code i ≠ TOO_MUCH_WORK then .fatal (code i) (i + 1)
    else cvodeBLoop code n (i + 1)

/-- Write at python index `-i` into a 2-d buffer: `buf[-0]` is `buf[0]`,
and `buf[-i]` is `buf[len(buf) - i]` for positive i in range. -/
def setNeg (buf : List (List ℚ)) (i : Nat) (v : List ℚ) : List (List ℚ) :=
  if i = 0 then buf.set 0 v else buf.set (buf.length - i) v

/-- Body of the sub-interval loop of AdjointSolver.solve_backward
(solver.py lines 568-595), processing the i-th pair
`((t_lower, t_upper), grad)`.  When `t_lower < t_upper` the backward
problem and its quadrature are reinitialized to the running values at
t_upper, the retry loop steps to t_lower, and on success CVodeGetB and
CVodeGetQuadB read the adjoint state and quadrature back into the running
buffers (`quad_data[:] = quad_out_data[:]`), followed by the reached-time
assert.  Otherwise the sub-interval is skipped entirely.  In either case,
when a gradient is present the running adjoint state is decremented by it
and the optional snapshot buffers are written at python index -i. -/
def processInterval (eng : BEng) (ERRORS : Int → String) (maxRetries : Nat)
    (p : Nat × (ℚ × ℚ) × Option (List ℚ)) (s : BST) : Except BackErr BST :=
  let i := p.1
  let tLower := p.2.1.1
  let tUpper := p.2.1.2
  let grad := p.2.2
  let afterStep : Except BackErr BST :=
    if tLower < tUpper then
      let o := eng s.engIdx tLower
      let evs1 := s.events ++ [BEvent.reinitB tUpper s.lamda, BEvent.quadReinitB s.quad]
      match cvodeBLoop o.code maxRetries 0 with
      | .fatal c _ =>
        .error (.solver (.solveFailedBetween tUpper tLower (ERRORS c) c))
      | .exhausted =>
        .error (.solver (.tooManyRetries tUpper tLower))
      | .success n =>
        let evs2 := evs1 ++ List.replicate n (BEvent.stepB tLower)
          ++ [BEvent.getB, BEvent.getQuadB]
        if o.tReached = tLower then
          .ok { s with
            lamda := o.lamda, quad := o.quad, quadOut := o.quad,
            engIdx := s.engIdx + 1, events := evs2 }
        else
          .error (.assertion o.tReached tLower)
    else
      .ok s
  match afterStep with
  | .error e => .error e
  | .ok s1 =>
    match grad with
    | none => .ok s1
    | some g =>
      let lam' := List.zipWith (fun a b => a - b) s1.lamda g
      .ok { s1 with
        lamda := lam',
        lamdaAll := s1.lamdaAll.map (fun buf => setNeg buf i lam'),
        quadAll := s1.quadAll.map (fun buf => setNeg buf i s1.quad) }

/-- The sub-interval loop of solve_backward: process the enumerated pairs
in order, aborting on the first raised exception. -/
def runPairs (eng : BEng) (ERRORS : Int → String) (maxRetries : Nat) :
    List (Nat × (ℚ × ℚ) × Option (List ℚ)) → BST → Except BackErr BST
  | [], s => .ok s
  | p :: rest, s =>
    match processInterval eng ERRORS maxRetries p s with
    | .error e => .error e
    | .ok s' => runPairs eng ERRORS maxRetries rest s'

/-- The time sequence `ts = [t0] + list(tvals[::-1]) + [tend]` of
solver.py line 564. -/
def mkTs (t0 tend : ℚ) (tvals : List ℚ) : List ℚ :=
  t0 :: (tvals.reverse ++ [tend])

/-- The enumerated loop sequence of solver.py lines 564-568: sub-intervals
`(t_lower, t_upper)` pair consecutive entries of ts (`zip(ts[1:], ts[:-1])`)
and are zipped against `reversed([None] + list(grads))`. -/
def mkPairs (t0 tend : ℚ) (tvals : List ℚ) (grads : List (List ℚ)) :
    List (Nat × (ℚ × ℚ) × Option (List ℚ)) :=
  let ts := mkTs t0 tend tvals
  let tIntervals := ts.tail.zip ts
  let gradsR := (((none : Option (List ℚ)) :: grads.map some)).reverse
  (tIntervals.zip gradsR).enum

/-- AdjointSolver.solve_backward (solver.py lines 537-598).  The instance
buffers (contents `lamda0`, `quad0`, `quadOut0` before the call) are zeroed
once (lines 557-559), then the enumerated sub-interval pairs are processed.
On success the final state carries the output writes of lines 597-598
through `BST.gradOut` and `BST.lamdaOut`. -/
def AdjointSolver.solve_backward (eng : BEng) (ERRORS : Int → String)
    (t0 tend : ℚ) (tvals : List ℚ) (grads : List (List ℚ))
    (lamdaAll0 quadAll0 : Option (List (List ℚ))) (maxRetries : Nat)
    (lamda0 quad0 quadOut0 : List ℚ) : Except BackErr BST :=
  let s0 : BST := {
    lamda := lamda0.map (fun _ => 0),
    quad := quad0.map (fun _ => 0),
    quadOut := quadOut0.map (fun _ => 0),
    engIdx := 0,
    lamdaAll := lamdaAll0,
    quadAll := quadAll0,
    events := [BEvent.zeroBuffers] }
  runPairs eng ERRORS maxRetries (mkPairs t0 tend tvals grads) s0

/-- `grad_out[:] = quad_out_data` (solver.py line 597). -/
def BST.gradOut (s : BST) : List ℚ := s.quadOut

/-- `lamda_out[:] = state_data` (solver.py line 598): the un-negated final
running adjoint state. -/
def BST.lamdaOut (s : BST) : List ℚ := s.lamda

/-- True exactly when solve_backward aborted with the reached-time
AssertionError rather than completing or raising a SolverError. -/
def assertionAborted : Except BackErr BST → Bool
  | .error (.assertion _ _) => true
  | _ => false

/-- Fill a vector-shaped buffer with the NaN sentinel (`buf[:] = np.nan`). -/
def nanFill (buf : List ℚ) : List (Option ℚ) := buf.map (fun _ => none)

/-- Fill a matrix-shaped buffer with the NaN sentinel. -/
def nanFill2 (buf : List (List ℚ)) : List (List (Option ℚ)) :=
  buf.map (fun row => row.map (fun _ => (none : Option ℚ)))

/-- View ordinary values as wrapper outputs (no NaN present). -/
def liftVals (buf : List ℚ) : List (Option ℚ) := buf.map some

/-- View an ordinary matrix as a wrapper output. -/
def liftVals2 (buf : List (List ℚ)) : List (List (Option ℚ)) :=
  buf.map liftVals

/-- SolveODEAdjoint.perform (as_theano.py lines 169-180): run the adjoint
forward pass; a caught SolverError fills the whole trajectory buffer with
NaN; the op's single declared output is a copy of the buffer, and the call
returns normally in both cases. -/
def SolveODEAdjoint.perform (eng : FEng) (ERRORS : Int → String) (fuel : Nat)
    (t0 : ℚ) (tvals : List ℚ) (y0 : List ℚ) (yOut0 : List (List ℚ)) :
    Option (List (List (Option ℚ))) :=
  match AdjointSolver.solve_forward eng ERRORS fuel t0 tvals y0 yOut0 with
  | none => none
  | some run =>
    match run.err with
    | some _ => some (nanFill2 run.yOut)
    | none => some (liftVals2 run.yOut)

/-- Exceptions that do escape SolveODEAdjointBackward.perform: the
reached-time AssertionError (not a SolverError, hence not caught) and the
IndexError of `tvals[-1]` on an empty time grid. -/
inductive Uncaught
  | assertion (got expected : ℚ)
  | indexError
deriving DecidableEq

/-- SolveODEAdjointBackward.perform (as_theano.py lines 207-225): run the
adjoint forward pass, then
`solve_backward(tvals[-1], t0, tvals, grads, grad_out, lamda_out)`; a
SolverError caught from either pass fills both declared outputs (the
adjoint state lamda and the parameter gradient) entirely with NaN and the
call returns normally.  `stateB0`, `quadB0`, `quadOutB0` are the solver
instance's backward buffers; `lamdaOut0`/`gradOut0` the op's output
buffers. -/
def SolveODEAdjointBackward.perform (engF : FEng) (engB : BEng)
    (ERRORS : Int → String) (fuel maxRetries : Nat)
    (t0 : ℚ) (tvals : List ℚ) (y0 : List ℚ) (grads : List (List ℚ))
    (yOut0 : List (List ℚ)) (gradOut0 lamdaOut0 : List ℚ)
    (stateB0 quadB0 quadOutB0 : List ℚ) :
    Option (Except Uncaught (List (Option ℚ) × List (Option ℚ))) :=
  match AdjointSolver.solve_forward engF ERRORS fuel t0 tvals y0 yOut0 with
  | none => none
  | some run =>
    match run.err with
    | some _ => some (.ok (nanFill lamdaOut0, nanFill gradOut0))
    | none =>
      match tvals.getLast? with
      | none => some (.error .indexError)
      | some tLast =>
        match AdjointSolver.solve_backward engB ERRORS tLast t0 tvals grads
            none none maxRetries stateB0 quadB0 quadOutB0 with
        | .error (.assertion g e) => some (.error (.assertion g e))
        | .error (.solver _) => some (.ok (nanFill lamdaOut0, nanFill gradOut0))
        | .ok st => some (.ok (liftVals st.lamdaOut, liftVals st.gradOut))

/-- SolveODEAdjoint.grad (as_theano.py lines 182-188): build the backward
op and return `[-lamda, gradient, ...]`: the gradient handed to the caller
with respect to the initial state is the elementwise negation of the
backward op's lamda output; the parameter gradient passes through. -/
def SolveODEAdjoint.grad (engF : FEng) (engB : BEng)
    (ERRORS : Int → String) (fuel maxRetries : Nat)
    (t0 : ℚ) (tvals : List ℚ) (y0 : List ℚ) (grads : List (List ℚ))
    (yOut0 : List (List ℚ)) (gradOut0 lamdaOut0 : List ℚ)
    (stateB0 quadB0 quadOutB0 : List ℚ) :
    Option (Except Uncaught (List (Option ℚ) × List (Option ℚ))) :=
  (SolveODEAdjointBackward.perform engF engB ERRORS fuel maxRetries
      t0 tvals y0 grads yOut0 gradOut0 lamdaOut0 stateB0 quadB0 quadOutB0).map
    (fun r => r.map
      (fun lg => (lg.1.map (Option.map (fun x => -x)), lg.2)))

/-- Claim C7 counterexample: the claim that all four scalar/vector
tolerance combinations are accepted by every solver type that takes a
tolerance configuration is false: AdjointSolver._set_tolerances rejects a
vector relative tolerance with a scalar absolute tolerance, raising
ValueError. -/
theorem c7_counterexample :
    AdjointSolver.set_tolerances (Tol.scalar 1) (Tol.vector [1])
      = Except.error PyErr.valueError := rfl

/-- Claim C7 (amended): Solver._set_tolerances accepts all four
scalar/vector combinations of relative and absolute tolerance, but
AdjointSolver._set_tolerances accepts only scalar rtol (with scalar or
vector atol) and raises ValueError on any vector rtol. -/
theorem c7_tolerance_combinations (a r : ℚ) (as rs : List ℚ) :
    Solver.set_tolerances (Tol.vector as) (Tol.vector rs) = .ok (.vv rs as)
    ∧ Solver.set_tolerances (Tol.vector as) (Tol.scalar r) = .ok (.sv r as)
    ∧ Solver.set_tolerances (Tol.scalar a) (Tol.vector rs) = .ok (.vs rs a)
    ∧ Solver.set_tolerances (Tol.scalar a) (Tol.scalar r) = .ok (.ss r a)
    ∧ AdjointSolver.set_tolerances (Tol.vector as) (Tol.scalar r) = .ok (.sv r as)
    ∧ AdjointSolver.set_tolerances (Tol.scalar a) (Tol.scalar r) = .ok (.ss r a)
    ∧ AdjointSolver.set_tolerances (Tol.vector as) (Tol.vector rs) = .error .valueError
    ∧ AdjointSolver.set_tolerances (Tol.scalar a) (Tol.vector rs) = .error .valueError :=
  ⟨rfl, rfl, rfl, rfl, rfl, rfl, rfl, rfl⟩

/-- Claim C10: on a Solver built with compute_sens=True, calling solve with
sens0=None or with sens_out=None raises ValueError immediately: the raised
error is ValueError, the event log is empty (no engine reinitialization or
stepping was issued), and the output buffers and the solver instance's
state and sensitivity buffers are returned unchanged. -/
theorem c10_missing_sens_value_error (eng : FEng) (ERRORS : Int → String)
    (fuel : Nat) (t0 : ℚ) (tvals : List ℚ) (y0 : List ℚ)
    (yOut0 : List (List ℚ)) (s0 : List (List ℚ))
    (sOut : Option (List (List (List ℚ))))
    (stateBuf0 : List ℚ) (sensBufs0 : List (List ℚ)) :
    Solver.solve eng ERRORS fuel true t0 tvals y0 yOut0 none sOut
        stateBuf0 sensBufs0
      = some ⟨some PyErr.valueError, yOut0, sOut.getD [], stateBuf0, sensBufs0, []⟩
    ∧ Solver.solve eng ERRORS fuel true t0 tvals y0 yOut0 (some s0) none
        stateBuf0 sensBufs0
      = some ⟨some PyErr.valueError, yOut0, [], stateBuf0, sensBufs0, []⟩ := by
  constructor <;> simp [Solver.solve]

/-- If every one of the next `n` CVodeB calls returns CV_TOO_MUCH_WORK, the
retry loop falls through to its for-else clause. -/
theorem cvodeBLoop_all_tmw (code : Nat → Int) :
    ∀ n i, (∀ j, j < n → code (i + j) = TOO_MUCH_WORK) →
      cvodeBLoop code n i = .exhausted := by
  intro n
  induction n with
  | zero => intro i _; rfl
  | succ m ih =>
    intro i h
    have h0 : code i = TOO_MUCH_WORK := by
      have := h 0 (Nat.succ_pos m)
      simpa using this
    have hne : ¬ code i = 0 := by
      rw [h0]; decide
    have hrec : cvodeBLoop code m (i + 1) = .exhausted := by
      apply ih
      intro j hj
      have := h (j + 1) (Nat.succ_lt_succ hj)
      simpa [Nat.add_assoc, Nat.add_comm 1 j] using this
    simp [cvodeBLoop, hne, h0, hrec, TOO_MUCH_WORK]

/-- Claim C3: in the backward pass, a non-degenerate sub-interval on which
the engine returns CV_TOO_MUCH_WORK on all max_retries consecutive CVodeB
calls raises the distinct retry-budget SolverError naming that sub-interval
(first two conjuncts: at the loop body and propagated by the sub-interval
loop, so the whole solve aborts with this error and returns no partial
result); the error differs from the single-fatal-step error constructor
(third conjunct); and the same holds for the full solve_backward entry
point on its first sub-interval (fourth conjunct). -/
theorem c3_retry_budget_exhaustion (eng : BEng) (ERRORS : Int → String)
    (maxRetries : Nat) (s : BST) (i : Nat) (tLower tUpper : ℚ)
    (grad : Option (List ℚ)) (rest : List (Nat × (ℚ × ℚ) × Option (List ℚ)))
    (hlt : tLower < tUpper)
    (htmw : ∀ j, j < maxRetries → (eng s.engIdx tLower).code j = TOO_MUCH_WORK) :
    processInterval eng ERRORS maxRetries (i, (tLower, tUpper), grad) s
        = .error (.solver (.tooManyRetries tUpper tLower))
    ∧ runPairs eng ERRORS maxRetries ((i, (tLower, tUpper), grad) :: rest) s
        = .error (.solver (.tooManyRetries tUpper tLower))
    ∧ (∀ tu tl nm c,
        SolverErr.tooManyRetries tUpper tLower
          ≠ SolverErr.solveFailedBetween tu tl nm c)
    ∧ (∀ t0 tend, tend < t0 →
        (∀ j, j < maxRetries → (eng 0 tend).code j = TOO_MUCH_WORK) →
        ∀ la qa l0 q0 qo0,
        AdjointSolver.solve_backward eng ERRORS t0 tend [] [] la qa maxRetries
            l0 q0 qo0
          = .error (.solver (.tooManyRetries t0 tend))) := by
  have hexh : cvodeBLoop ((eng s.engIdx tLower).code) maxRetries 0 = .exhausted := by
    apply cvodeBLoop_all_tmw
    intro j hj
    simpa using htmw j hj
  have hproc : processInterval eng ERRORS maxRetries (i, (tLower, tUpper), grad) s
      = .error (.solver (.tooManyRetries tUpper tLower)) := by
    simp [processInterval, hlt, hexh]
  refine ⟨hproc, ?_, ?_, ?_⟩
  · simp [runPairs, hproc]
  · intro tu tl nm c h
    exact SolverErr.noConfusion h
  · intro t0 tend hlt2 htmw2 la qa l0 q0 qo0
    have hexh2 : cvodeBLoop ((eng 0 tend).code) maxRetries 0 = .exhausted := by
      apply cvodeBLoop_all_tmw
      intro j hj
      simpa using htmw2 j hj
    simp [AdjointSolver.solve_backward, mkPairs, mkTs, runPairs,
      processInterval, hlt2, hexh2]

/-- A backward engine used for concrete instantiations: every CVodeB call
returns CV_TOO_MUCH_WORK. -/
def engAllTmw : BEng := fun _ _ => ⟨fun _ => TOO_MUCH_WORK, 0, [], []⟩

/-- A concrete backward-loop state used for concrete instantiations. -/
def stW : BST := ⟨[0], [0], [0], 0, none, none, [BEvent.zeroBuffers]⟩

/-- Claim C3 witness: at a concrete non-degenerate sub-interval (1, 2) with
an engine that always reports resource exhaustion and max_retries = 3, the
loop body, the sub-interval loop and the full solve_backward all raise the
retry-budget error. -/
theorem c3_retry_budget_exhaustion_witness :
    processInterval engAllTmw (fun _ => "") 3 (0, (1, 2), none) stW
        = .error (.solver (.tooManyRetries 2 1))
    ∧ AdjointSolver.solve_backward engAllTmw (fun _ => "") 2 1 [] [] none none 3
        [0] [0] [0]
      = .error (.solver (.tooManyRetries 2 1)) := by
  have h := c3_retry_budget_exhaustion engAllTmw (fun _ => "") 3 stW 0 1 2 none []
    (by norm_num) (by intro j hj; rfl)
  exact ⟨h.1, h.2.2.2 2 1 (by norm_num) (by intro j hj; rfl) none none [0] [0] [0]⟩

/-- Under the engine read-back contract (a successful CVodeB retry loop
leaves the backward problem exactly at the requested target time), no
sub-interval of the loop can abort with the reached-time AssertionError. -/
theorem runPairs_no_assertion (eng : BEng) (ERRORS : Int → String)
    (maxRetries : Nat)
    (H : ∀ k t n, cvodeBLoop ((eng k t).code) maxRetries 0 = .success n →
        (eng k t).tReached = t) :
    ∀ ps s, assertionAborted (runPairs eng ERRORS maxRetries ps s) = false := by
  intro ps
  induction ps with
  | nil => intro s; rfl
  | cons p rest ih =>
    intro s
    obtain ⟨i, ⟨tl, tu⟩, g⟩ := p
    by_cases hdeg : tl < tu
    · cases hres : cvodeBLoop ((eng s.engIdx tl).code) maxRetries 0 with
      | success n =>
        have ht := H s.engIdx tl n hres
        cases g with
        | none => simp [runPairs, processInterval, hdeg, hres, ht, ih]
        | some gv => simp [runPairs, processInterval, hdeg, hres, ht, ih]
      | fatal c m =>
        cases g with
        | none => simp [runPairs, processInterval, hdeg, hres, assertionAborted]
        | some gv => simp [runPairs, processInterval, hdeg, hres, assertionAborted]
      | exhausted =>
        cases g with
        | none => simp [runPairs, processInterval, hdeg, hres, assertionAborted]
        | some gv => simp [runPairs, processInterval, hdeg, hres, assertionAborted]
    · cases g with
      | none => simp [runPairs, processInterval, hdeg, ih]
      | some gv => simp [runPairs, processInterval, hdeg, ih]

/-- Claim C9: whenever the backward engine satisfies the CVodeGetB/GetQuadB
contract that a successful sub-interval step leaves it at the requested
target time t_lower, the `assert time_p[0] == t_lower` of solve_backward
never fires: no run of solve_backward aborts with the AssertionError. -/
theorem c9_reached_time_assertion (eng : BEng) (ERRORS : Int → String)
    (maxRetries : Nat)
    (H : ∀ k t n, cvodeBLoop ((eng k t).code) maxRetries 0 = .success n →
        (eng k t).tReached = t)
    (t0 tend : ℚ) (tvals : List ℚ) (grads : List (List ℚ))
    (la qa : Option (List (List ℚ))) (l0 q0 qo0 : List ℚ) :
    assertionAborted (AdjointSolver.solve_backward eng ERRORS t0 tend tvals
        grads la qa maxRetries l0 q0 qo0) = false := by
  unfold AdjointSolver.solve_backward
  exact runPairs_no_assertion eng ERRORS maxRetries H _ _

/-- A backward engine for concrete instantiations that satisfies the
read-back contract: every CVodeB call succeeds and the read-back time is
the requested target. -/
def engContract : BEng := fun _ t => ⟨fun _ => 0, t, [2], [3]⟩

/-- Claim C9 witness: a concrete backward solve under the contract-abiding
engine does not abort with the AssertionError. -/
theorem c9_reached_time_assertion_witness :
    assertionAborted (AdjointSolver.solve_backward engContract (fun _ => "")
        5 0 [1, 3] [[1], [2]] none none 3 [0] [0] [0]) = false :=
  c9_reached_time_assertion engContract (fun _ => "") 3
    (fun _ _ _ _ => rfl) 5 0 [1, 3] [[1], [2]] none none [0] [0] [0]

/-- The sub-interval loop body only appends to the event log, and what it
appends never contains another buffer zeroing. -/
theorem processInterval_events (eng : BEng) (ERRORS : Int → String)
    (maxRetries : Nat) (p : Nat × (ℚ × ℚ) × Option (List ℚ)) (s s' : BST)
    (h : processInterval eng ERRORS maxRetries p s = .ok s') :
    ∃ ex, s'.events = s.events ++ ex ∧ BEvent.zeroBuffers ∉ ex := by
  obtain ⟨i, ⟨tl, tu⟩, g⟩ := p
  by_cases hdeg : tl < tu
  · cases hres : cvodeBLoop ((eng s.engIdx tl).code) maxRetries 0 with
    | success n =>
      by_cases ht : (eng s.engIdx tl).tReached = tl
      · cases g with
        | none =>
          simp only [processInterval, hdeg, if_true, hres, ht] at h
          rw [Except.ok.injEq] at h
          subst h
          refine ⟨[BEvent.reinitB tu s.lamda, BEvent.quadReinitB s.quad]
            ++ List.replicate n (BEvent.stepB tl)
            ++ [BEvent.getB, BEvent.getQuadB], by simp, ?_⟩
          simp [List.mem_replicate]
        | some gv =>
          simp only [processInterval, hdeg, if_true, hres, ht] at h
          rw [Except.ok.injEq] at h
          subst h
          refine ⟨[BEvent.reinitB tu s.lamda, BEvent.quadReinitB s.quad]
            ++ List.replicate n (BEvent.stepB tl)
            ++ [BEvent.getB, BEvent.getQuadB], by simp, ?_⟩
          simp [List.mem_replicate]
      · cases g with
        | none => simp [processInterval, hdeg, hres, ht] at h
        | some gv => simp [processInterval, hdeg, hres, ht] at h
    | fatal c m =>
      cases g with
      | none => simp [processInterval, hdeg, hres] at h
      | some gv => simp [processInterval, hdeg, hres] at h
    | exhausted =>
      cases g with
      | none => simp [processInterval, hdeg, hres] at h
      | some gv => simp [processInterval, hdeg, hres] at h
  · cases g with
    | none =>
      simp only [processInterval, hdeg, if_false] at h
      rw [Except.ok.injEq] at h
      subst h
      exact ⟨[], by simp, by simp⟩
    | some gv =>
      simp only [processInterval, hdeg, if_false] at h
      rw [Except.ok.injEq] at h
      subst h
      exact ⟨[], by simp, by simp⟩

/-- The whole sub-interval loop only appends to the event log and never
logs another buffer zeroing. -/
theorem runPairs_events (eng : BEng) (ERRORS : Int → String) (maxRetries : Nat) :
    ∀ ps (s s' : BST), runPairs eng ERRORS maxRetries ps s = .ok s' →
      ∃ ex, s'.events = s.events ++ ex ∧ BEvent.zeroBuffers ∉ ex := by
  intro ps
  induction ps with
  | nil =>
    intro s s' h
    simp only [runPairs] at h
    rw [Except.ok.injEq] at h
    subst h
    exact ⟨[], by simp, by simp⟩
  | cons p rest ih =>
    intro s s' h
    cases hp : processInterval eng ERRORS maxRetries p s with
    | error e => simp [runPairs, hp] at h
    | ok s1 =>
      simp only [runPairs, hp] at h
      obtain ⟨ex1, he1, hn1⟩ := processInterval_events eng ERRORS maxRetries p s s1 hp
      obtain ⟨ex2, he2, hn2⟩ := ih s1 s' h
      refine ⟨ex1 ++ ex2, ?_, ?_⟩
      · rw [he2, he1, List.append_assoc]
      · simp [hn1, hn2]

/-- Claim C1: in solve_backward, (i) the processed sub-intervals pair
consecutive entries of ts = [t0] + reverse(tvals) + [tend] as
(t_lower, t_upper) = (ts[j+1], ts[j]); (ii) a degenerate sub-interval
(skipped whenever t_lower < t_upper fails, in particular when they are
equal) performs no engine action: with no gradient attached the state is
returned entirely unchanged, and with a gradient attached the only changes
are the injection (the running adjoint state decremented elementwise by the
gradient) and the optional snapshot writes, while the event log, session
counter, and quadrature buffers stay untouched; (iii) the adjoint state and
both quadrature buffers are zeroed exactly once before the first
sub-interval: the solve runs the loop from the zero-filled buffers carrying
the single zeroBuffers event, and every completed run's event log contains
zeroBuffers exactly once, at the very beginning. -/
theorem c1_backward_subintervals (eng : BEng) (ERRORS : Int → String)
    (maxRetries : Nat) (t0 tend : ℚ) (tvals : List ℚ) (grads : List (List ℚ))
    (la qa : Option (List (List ℚ))) (l0 q0 qo0 : List ℚ) :
    (∀ j p, (mkPairs t0 tend tvals grads)[j]? = some p →
        p.1 = j ∧ (mkTs t0 tend tvals)[j + 1]? = some p.2.1.1
          ∧ (mkTs t0 tend tvals)[j]? = some p.2.1.2)
    ∧ (∀ (s : BST) i tl tu, ¬ tl < tu →
        processInterval eng ERRORS maxRetries (i, (tl, tu), none) s = .ok s)
    ∧ (∀ (s : BST) i tl tu g, ¬ tl < tu →
        processInterval eng ERRORS maxRetries (i, (tl, tu), some g) s
          = .ok { s with
              lamda := List.zipWith (fun a b => a - b) s.lamda g,
              lamdaAll := s.lamdaAll.map
                (fun buf => setNeg buf i (List.zipWith (fun a b => a - b) s.lamda g)),
              quadAll := s.quadAll.map (fun buf => setNeg buf i s.quad) })
    ∧ (AdjointSolver.solve_backward eng ERRORS t0 tend tvals grads la qa
          maxRetries l0 q0 qo0
        = runPairs eng ERRORS maxRetries (mkPairs t0 tend tvals grads)
            ⟨l0.map (fun _ => 0), q0.map (fun _ => 0), qo0.map (fun _ => 0),
              0, la, qa, [BEvent.zeroBuffers]⟩)
    ∧ (∀ st, AdjointSolver.solve_backward eng ERRORS t0 tend tvals grads la qa
          maxRetries l0 q0 qo0 = .ok st →
        st.events.head? = some BEvent.zeroBuffers
          ∧ st.events.count BEvent.zeroBuffers = 1) := by
  refine ⟨?_, ?_, ?_, rfl, ?_⟩
  · intro j p hp
    simp only [mkPairs, List.getElem?_enum] at hp
    rcases Option.map_eq_some'.mp hp with ⟨q, hq, hqp⟩
    rcases List.getElem?_zip_eq_some.mp hq with ⟨hq1, _⟩
    rcases List.getElem?_zip_eq_some.mp hq1 with ⟨hql, hqu⟩
    subst hqp
    refine ⟨rfl, ?_, ?_⟩
    · simpa [mkTs] using hql
    · simpa [mkTs] using hqu
  · intro s i tl tu hdeg
    simp [processInterval, hdeg]
  · intro s i tl tu g hdeg
    simp [processInterval, hdeg]
  · intro st h
    unfold AdjointSolver.solve_backward at h
    obtain ⟨ex, he, hn⟩ := runPairs_events eng ERRORS maxRetries _ _ _ h
    rw [he]
    constructor
    · rfl
    · simp [List.count_cons, List.count_eq_zero.mpr hn]

/-- Final state of a concrete one-sub-interval backward solve under the
contract-abiding engine, used for concrete instantiations. -/
def stC1 : BST :=
  ⟨[2], [3], [3], 1, none, none,
    [BEvent.zeroBuffers, BEvent.reinitB 1 [0], BEvent.quadReinitB [0],
      BEvent.stepB 0, BEvent.getB, BEvent.getQuadB]⟩

/-- Claim C1 witness: concrete instances of the sub-interval pairing, of a
degenerate sub-interval leaving the state untouched, and of a completed
solve whose event log holds the buffer zeroing exactly once, in front. -/
theorem c1_backward_subintervals_witness :
    ((mkTs 1 0 [])[1]? = some 0 ∧ (mkTs 1 0 [])[0]? = some 1)
    ∧ processInterval engContract (fun _ => "") 3 (0, (1, 1), none) stW = .ok stW
    ∧ (stC1.events.head? = some BEvent.zeroBuffers
        ∧ stC1.events.count BEvent.zeroBuffers = 1) := by
  have h := c1_backward_subintervals engContract (fun _ => "") 3 1 0 [] []
    none none [0] [0] [0]
  exact ⟨(h.1 0 (0, (0, 1), none) (by decide)).2,
    h.2.1 stW 0 1 1 (by decide),
    h.2.2.2.2 stC1 (by rfl)⟩

/-- Event log carried by a stepping-loop result. -/
def StepRes.evs : StepRes → List FEvent
  | .ok _ _ e => e
  | .err _ _ _ e => e

/-- Every event the stepping while-loop adds to the log is a step request
toward its single target time t: the same request is reissued unchanged. -/
theorem stepLoop_events (eng : FEng) (ERRORS : Int → String) (t : ℚ) :
    ∀ fuel k evs res, stepLoop eng ERRORS t fuel k evs = some res →
      ∀ ev, ev ∈ res.evs → ev ∈ evs ∨ ev = FEvent.step t := by
  intro fuel
  induction fuel with
  | zero => intro k evs res h; simp [stepLoop] at h
  | succ n ih =>
    intro k evs res h ev hev
    simp only [stepLoop] at h
    by_cases h1 : (eng k).code = TOO_MUCH_WORK
    · rw [if_pos h1] at h
      rcases ih (k + 1) (evs ++ [FEvent.step t]) res h ev hev with hin | heq
      · rcases List.mem_append.mp hin with h2 | h2
        · exact Or.inl h2
        · simp only [List.mem_singleton] at h2
          exact Or.inr h2
      · exact Or.inr heq
    · rw [if_neg h1] at h
      by_cases h2 : (eng k).code = 0
      · rw [if_pos h2] at h
        simp only [Option.some.injEq] at h
        subst h
        rcases List.mem_append.mp hev with h3 | h3
        · exact Or.inl h3
        · simp only [List.mem_singleton] at h3
          exact Or.inr h3
      · rw [if_neg h2] at h
        simp only [Option.some.injEq] at h
        subst h
        rcases List.mem_append.mp hev with h3 | h3
        · exact Or.inl h3
        · simp only [List.mem_singleton] at h3
          exact Or.inr h3

/-- Every step request the output-time loop issues targets a time different
from t0 (new step events beyond the incoming log never aim at t0). -/
theorem runTimes_step_targets (eng : FEng) (ERRORS : Int → String)
    (fuel : Nat) (cs : Bool) (t0 : ℚ) (y0 : List ℚ) (s0 : List (List ℚ)) :
    ∀ tv i s out e0, runTimes eng ERRORS fuel cs t0 y0 s0 tv i s = some (out, e0) →
      ∀ t', FEvent.step t' ∈ out.events → FEvent.step t' ∈ s.events ∨ t' ≠ t0 := by
  intro tv
  induction tv with
  | nil =>
    intro i s out e0 h t' hin
    simp only [runTimes, Option.some.injEq, Prod.mk.injEq] at h
    rw [← h.1] at hin
    exact Or.inl hin
  | cons t rest ih =>
    intro i s out e0 h t' hin
    by_cases hte : t = t0
    · simp only [runTimes, if_pos hte] at h
      rcases ih (i + 1) _ out e0 h t' hin with h2 | h2
      · exact Or.inl h2
      · exact Or.inr h2
    · cases hsl : stepLoop eng ERRORS t fuel s.k s.events with
      | none => simp [runTimes, hte, hsl] at h
      | some sr =>
        cases sr with
        | err e r k' evs' =>
          simp only [runTimes, if_neg hte, hsl, Option.some.injEq,
            Prod.mk.injEq] at h
          rw [← h.1] at hin
          rcases stepLoop_events eng ERRORS t fuel s.k s.events _ hsl
              (FEvent.step t') hin with h2 | h2
          · exact Or.inl h2
          · simp only [FEvent.step.injEq] at h2
            subst h2
            exact Or.inr hte
        | ok r k' evs' =>
          simp only [runTimes, if_neg hte, hsl] at h
          cases cs with
          | false =>
            simp only [Bool.false_eq_true, if_false] at h
            rcases ih (i + 1) _ out e0 h t' hin with h2 | h2
            · rcases stepLoop_events eng ERRORS t fuel s.k s.events _ hsl
                  (FEvent.step t') h2 with h3 | h3
              · exact Or.inl h3
              · simp only [FEvent.step.injEq] at h3
                subst h3
                exact Or.inr hte
            · exact Or.inr h2
          | true =>
            simp only [if_true] at h
            rcases ih (i + 1) _ out e0 h t' hin with h2 | h2
            · simp only [List.mem_append] at h2
              rcases h2 with h2 | h2
              · rcases stepLoop_events eng ERRORS t fuel s.k s.events _ hsl
                    (FEvent.step t') h2 with h3 | h3
                · exact Or.inl h3
                · simp only [FEvent.step.injEq] at h3
                  subst h3
                  exact Or.inr hte
              · simp at h2
            · exact Or.inr h2

/-- Once row 0 of the trajectory buffer holds y0, the rest of the
output-time loop preserves it: the t == t0 branch rewrites row 0 with y0
itself and every stepped time writes its own row index, which is at least
one from the second loop iteration on. -/
theorem runTimes_row0 (eng : FEng) (ERRORS : Int → String)
    (fuel : Nat) (cs : Bool) (t0 : ℚ) (y0 : List ℚ) (s0 : List (List ℚ)) :
    ∀ tv i s out e0, runTimes eng ERRORS fuel cs t0 y0 s0 tv i s = some (out, e0) →
      1 ≤ i → s.yOut[0]? = some y0 → out.yOut[0]? = some y0 := by
  intro tv
  induction tv with
  | nil =>
    intro i s out e0 h _ h0
    simp only [runTimes, Option.some.injEq, Prod.mk.injEq] at h
    rw [← h.1]
    exact h0
  | cons t rest ih =>
    intro i s out e0 h hi h0
    have hlen : 0 < s.yOut.length := by
      by_contra hl
      rw [List.getElem?_eq_none (by omega)] at h0
      exact Option.noConfusion h0
    by_cases hte : t = t0
    · simp only [runTimes, if_pos hte] at h
      refine ih (i + 1) _ out e0 h (by omega) ?_
      simpa using List.getElem?_set_eq_of_lt y0 hlen
    · cases hsl : stepLoop eng ERRORS t fuel s.k s.events with
      | none => simp [runTimes, hte, hsl] at h
      | some sr =>
        cases sr with
        | err e r k' evs' =>
          simp only [runTimes, if_neg hte, hsl, Option.some.injEq,
            Prod.mk.injEq] at h
          rw [← h.1]
          exact h0
        | ok r k' evs' =>
          simp only [runTimes, if_neg hte, hsl] at h
          have hset : (s.yOut.set i r.y)[0]? = some y0 := by
            rw [List.getElem?_set_ne (by omega)]
            exact h0
          cases cs with
          | false =>
            simp only [Bool.false_eq_true, if_false] at h
            exact ih (i + 1) _ out e0 h (by omega) hset
          | true =>
            simp only [if_true] at h
            exact ih (i + 1) _ out e0 h (by omega) hset

/-- Core of claim C4, at the level of the shared output-time loop: if t0
can only sit at index 0 of the time grid, then a loop run started at index
0 with a step-free event log never issues a step request toward t0, and
(on a nonempty trajectory buffer) every row whose requested time equals t0
holds exactly y0 afterwards. -/
theorem runTimes_t0_rows (eng : FEng) (ERRORS : Int → String)
    (fuel : Nat) (cs : Bool) (t0 : ℚ) (y0 : List ℚ) (s0 : List (List ℚ))
    (tvals : List ℚ) (init : FLoopSt) (out : FLoopSt) (e0 : Option SolverErr)
    (hrt : runTimes eng ERRORS fuel cs t0 y0 s0 tvals 0 init = some (out, e0))
    (hgrid : ∀ j : Nat, tvals[j]? = some t0 → j = 0)
    (hinitev : ∀ t', FEvent.step t' ∉ init.events) :
    (∀ t', FEvent.step t' ∈ out.events → t' ≠ t0)
    ∧ (init.yOut ≠ [] →
        ∀ i : Nat, tvals[i]? = some t0 → out.yOut[i]? = some y0) := by
  constructor
  · intro t' hmem
    rcases runTimes_step_targets eng ERRORS fuel cs t0 y0 s0 tvals 0 init out e0
        hrt t' hmem with h | h
    · exact absurd h (hinitev t')
    · exact h
  · intro hne i hi
    have hi0 := hgrid i hi
    subst hi0
    cases tvals with
    | nil => simp at hi
    | cons t rest =>
      simp only [List.getElem?_cons_zero, Option.some.injEq] at hi
      subst hi
      simp only [runTimes, if_pos rfl] at hrt
      have hlen : 0 < init.yOut.length := List.length_pos.mpr hne
      refine runTimes_row0 eng ERRORS fuel cs t y0 s0 rest 1 _ out e0 hrt
        (by omega) ?_
      simpa using List.getElem?_set_eq_of_lt y0 hlen

/-- Claim C4: for a forward solve (both Solver.solve and
AdjointSolver.solve_forward) on a time grid in which t0 can only appear at
index 0 (the spec's time-grid invariant: tvals is strictly increasing and
starts at or after t0), every trajectory row whose requested time equals t0
holds exactly y0, and no step request toward t0 is ever issued to the
engine; in particular row 0 is y0 unmodified when tvals[0] == t0. -/
theorem c4_t0_rows_unstepped (eng : FEng) (ERRORS : Int → String) (fuel : Nat)
    (t0 : ℚ) (tvals : List ℚ) (y0 : List ℚ) (yOut0 : List (List ℚ))
    (stateBuf0 : List ℚ) (sensBufs0 : List (List ℚ))
    (hgrid : ∀ j : Nat, tvals[j]? = some t0 → j = 0) :
    (∀ run, AdjointSolver.solve_forward eng ERRORS fuel t0 tvals y0 yOut0
        = some run →
      (∀ t', FEvent.step t' ∈ run.events → t' ≠ t0)
      ∧ (yOut0 ≠ [] → ∀ i : Nat, tvals[i]? = some t0 → run.yOut[i]? = some y0))
    ∧ (∀ run, Solver.solve eng ERRORS fuel false t0 tvals y0 yOut0 none none
        stateBuf0 sensBufs0 = some run →
      (∀ t', FEvent.step t' ∈ run.events → t' ≠ t0)
      ∧ (yOut0 ≠ [] → ∀ i : Nat, tvals[i]? = some t0 → run.yOut[i]? = some y0)) := by
  constructor
  · intro run hrun
    cases hrt : runTimes eng ERRORS fuel false t0 y0 [] tvals 0
        ⟨yOut0, [], y0, [], 0, [FEvent.reinit t0 y0, FEvent.adjReinit]⟩ with
    | none => simp [AdjointSolver.solve_forward, hrt] at hrun
    | some pr =>
      obtain ⟨s, e0⟩ := pr
      simp only [AdjointSolver.solve_forward, hrt, Option.some.injEq] at hrun
      subst hrun
      have h := runTimes_t0_rows eng ERRORS fuel false t0 y0 [] tvals _ s e0 hrt
        hgrid (by intro u; simp)
      exact ⟨h.1, fun hne => h.2 (by simpa using hne)⟩
  · intro run hrun
    simp only [Solver.solve, Bool.false_eq_true, false_and, if_false,
      Option.getD_none] at hrun
    cases hrt : runTimes eng ERRORS fuel false t0 y0 [] tvals 0
        ⟨yOut0, [], y0, sensBufs0, 0, [FEvent.reinit t0 y0]⟩ with
    | none =>
      rw [hrt] at hrun
      exact Option.noConfusion hrun
    | some pr =>
      obtain ⟨s, e0⟩ := pr
      rw [hrt] at hrun
      have h := runTimes_t0_rows eng ERRORS fuel false t0 y0 [] tvals _ s e0 hrt
        hgrid (by intro u; simp)
      cases e0 with
      | none =>
        simp only [Option.some.injEq] at hrun
        subst hrun
        exact ⟨h.1, fun hne => h.2 (by simpa using hne)⟩
      | some e =>
        simp only [Option.some.injEq] at hrun
        subst hrun
        exact ⟨h.1, fun hne => h.2 (by simpa using hne)⟩

/-- A forward engine for concrete instantiations: every stepping call
succeeds, depositing state [7] and sensitivity [[9]]. -/
def engC4 : FEng := fun _ => ⟨0, [7], 0, [[9]]⟩

/-- Claim C4 witness: a concrete adjoint forward solve with t0 = 0 and
tvals = [0, 2] leaves row 0 equal to y0 = [1] and issues step requests only
toward the time 2, never toward t0. -/
theorem c4_t0_rows_unstepped_witness :
    (([[1], [7]] : List (List ℚ))[0]? = some [1]) ∧ ((2 : ℚ) ≠ 0) := by
  have h := c4_t0_rows_unstepped engC4 (fun _ => "") 3 0 [0, 2] [1] [[5], [5]]
    [0] [] (by intro j hj; rcases j with _ | _ | j <;> simp_all)
  have h1 := h.1 ⟨none, [[1], [7]], [7],
    [FEvent.reinit 0 [1], FEvent.adjReinit, FEvent.step 2]⟩ (by rfl)
  refine ⟨?_, h1.1 2 (by simp)⟩
  exact h1.2 (by simp) 0 (by rfl)

/-- Running the stepping while-loop past m consecutive CV_TOO_MUCH_WORK
responses is the same as starting it m calls later, with m identical step
requests logged: the request is reissued unchanged. -/
theorem stepLoop_tmw_shift (eng : FEng) (ERRORS : Int → String) (t : ℚ) :
    ∀ m k fuel evs,
      (∀ j, j < m → (eng (k + j)).code = TOO_MUCH_WORK) → m < fuel →
      stepLoop eng ERRORS t fuel k evs
        = stepLoop eng ERRORS t (fuel - m) (k + m)
            (evs ++ List.replicate m (FEvent.step t)) := by
  intro m
  induction m with
  | zero => intro k fuel evs _ _; simp
  | succ n ih =>
    intro k fuel evs h hlt
    cases fuel with
    | zero => omega
    | succ f =>
      have h0 : (eng k).code = TOO_MUCH_WORK := by simpa using h 0 (Nat.succ_pos n)
      have hstep : stepLoop eng ERRORS t (f + 1) k evs
          = stepLoop eng ERRORS t f (k + 1) (evs ++ [FEvent.step t]) := by
        simp [stepLoop, h0]
      have hshift : ∀ j, j < n → (eng (k + 1 + j)).code = TOO_MUCH_WORK := by
        intro j hj
        have hh := h (j + 1) (by omega)
        have e : k + (j + 1) = k + 1 + j := by omega
        rwa [e] at hh
      have e1 : f + 1 - (n + 1) = f - n := by omega
      have e2 : k + (n + 1) = k + 1 + n := by omega
      have e3 : evs ++ List.replicate (n + 1) (FEvent.step t)
          = (evs ++ [FEvent.step t]) ++ List.replicate n (FEvent.step t) := by
        simp [List.replicate_succ]
      rw [hstep, ih (k + 1) f (evs ++ [FEvent.step t]) hshift (by omega),
        e1, e2, e3]

/-- Claim C6: in the forward stepping loops, any finite run of m
CV_TOO_MUCH_WORK responses is absorbed by reissuing the identical step
request, for every m (no retry bound at this layer) and with no trace in
the outcome (never surfaced): the loop returns the first non-retryable
engine outcome, logging m+1 identical step requests.  A non-retryable
nonzero code instead raises SolverError carrying the engine's symbolic
status and numeric code.  Both Solver.solve and
AdjointSolver.solve_forward abort immediately with that raised error. -/
theorem c6_retry_discipline (eng : FEng) (ERRORS : Int → String) (t : ℚ)
    (m k : Nat)
    (htmw : ∀ j, j < m → (eng (k + j)).code = TOO_MUCH_WORK) :
    ((eng (k + m)).code = 0 → ∀ fuel, m < fuel → ∀ evs,
      stepLoop eng ERRORS t fuel k evs
        = some (.ok (eng (k + m)) (k + m + 1)
            (evs ++ List.replicate (m + 1) (FEvent.step t))))
    ∧ ((eng (k + m)).code ≠ 0 → (eng (k + m)).code ≠ TOO_MUCH_WORK →
      ∀ fuel, m < fuel → ∀ evs,
      stepLoop eng ERRORS t fuel k evs
        = some (.err (.badReturnCode (ERRORS ((eng (k + m)).code))
              ((eng (k + m)).code)) (eng (k + m)) (k + m + 1)
            (evs ++ List.replicate (m + 1) (FEvent.step t))))
    ∧ (∀ fuel t0 rest y0 yOut0 e r k2 evs2, t ≠ t0 →
        stepLoop eng ERRORS t fuel 0 [FEvent.reinit t0 y0, FEvent.adjReinit]
          = some (.err e r k2 evs2) →
        AdjointSolver.solve_forward eng ERRORS fuel t0 (t :: rest) y0 yOut0
          = some ⟨some e, yOut0, r.y, evs2⟩)
    ∧ (∀ fuel t0 rest y0 yOut0 stateBuf0 sensBufs0 e r k2 evs2, t ≠ t0 →
        stepLoop eng ERRORS t fuel 0 [FEvent.reinit t0 y0]
          = some (.err e r k2 evs2) →
        Solver.solve eng ERRORS fuel false t0 (t :: rest) y0 yOut0 none none
            stateBuf0 sensBufs0
          = some ⟨some (.solverError e), yOut0, [], r.y, sensBufs0, evs2⟩) := by
  refine ⟨?_, ?_, ?_, ?_⟩
  · intro hc fuel hf evs
    rw [stepLoop_tmw_shift eng ERRORS t m k fuel evs htmw hf]
    obtain ⟨f1, hf1⟩ : ∃ f1, fuel - m = f1 + 1 := ⟨fuel - m - 1, by omega⟩
    rw [hf1]
    simp [stepLoop, hc, TOO_MUCH_WORK, List.replicate_succ']
  · intro hc1 hc2 fuel hf evs
    rw [stepLoop_tmw_shift eng ERRORS t m k fuel evs htmw hf]
    obtain ⟨f1, hf1⟩ : ∃ f1, fuel - m = f1 + 1 := ⟨fuel - m - 1, by omega⟩
    rw [hf1]
    simp [stepLoop, hc1, hc2, List.replicate_succ']
  · intro fuel t0 rest y0 yOut0 e r k2 evs2 hne hsl
    simp [AdjointSolver.solve_forward, runTimes, hne, hsl]
  · intro fuel t0 rest y0 yOut0 stateBuf0 sensBufs0 e r k2 evs2 hne hsl
    simp [Solver.solve, runTimes, hne, hsl]

/-- A forward engine for concrete instantiations: resource exhaustion on
the first two calls, success on the third. -/
def engC6 : FEng := fun j =>
  if j < 2 then ⟨-1, [5], 0, []⟩ else if j = 2 then ⟨0, [7], 0, []⟩
  else ⟨-20, [8], 0, []⟩

/-- A forward engine for concrete instantiations: every call returns the
fatal code -20. -/
def engBad : FEng := fun _ => ⟨-20, [8], 0, []⟩

/-- Claim C6 witness: two retryable responses followed by success make the
loop succeed with three identical logged step requests, and a fatal code
aborts the adjoint forward solve with the SolverError carrying the symbolic
name and the code. -/
theorem c6_retry_discipline_witness :
    stepLoop engC6 (fun _ => "E") 3 4 0 []
      = some (.ok ⟨0, [7], 0, []⟩ 3 (List.replicate 3 (FEvent.step 3)))
    ∧ AdjointSolver.solve_forward engBad (fun _ => "E") 1 0 [3] [1] [[5]]
      = some ⟨some (.badReturnCode "E" (-20)), [[5]], [8],
          [FEvent.reinit 0 [1], FEvent.adjReinit, FEvent.step 3]⟩ := by
  have h := c6_retry_discipline engC6 (fun _ => "E") 3 2 0
    (by intro j hj; interval_cases j <;> rfl)
  have h2 := c6_retry_discipline engBad (fun _ => "E") 3 0 0
    (by intro j hj; omega)
  refine ⟨h.1 (by decide) 4 (by omega) [], ?_⟩
  exact h2.2.2.1 1 0 [] [1] [[5]] _ _ _ _ (by norm_num)
    (h2.2.1 (by decide) (by decide) 1 (by omega)
      [FEvent.reinit 0 [1], FEvent.adjReinit])

/-- Claim C2: in the adjoint autodiff wrapper, a SolverError caught during
the forward pass makes SolveODEAdjoint.perform return normally with the
whole trajectory buffer filled with the NaN sentinel, and makes
SolveODEAdjointBackward.perform return normally with both declared outputs
(adjoint state and parameter gradient) filled with the NaN sentinel; a
SolverError raised by the backward pass does the same; and the NaN fills
are total, every entry of a filled buffer being the sentinel. -/
theorem c2_nan_poisoning (engF : FEng) (engB : BEng) (ERRORS : Int → String)
    (fuel maxRetries : Nat) (t0 : ℚ) (tvals : List ℚ) (y0 : List ℚ)
    (grads : List (List ℚ)) (yOut0 : List (List ℚ))
    (gradOut0 lamdaOut0 stateB0 quadB0 quadOutB0 : List ℚ) :
    (∀ run e,
        AdjointSolver.solve_forward engF ERRORS fuel t0 tvals y0 yOut0
          = some run →
        run.err = some e →
        SolveODEAdjoint.perform engF ERRORS fuel t0 tvals y0 yOut0
          = some (nanFill2 run.yOut))
    ∧ (∀ run e,
        AdjointSolver.solve_forward engF ERRORS fuel t0 tvals y0 yOut0
          = some run →
        run.err = some e →
        SolveODEAdjointBackward.perform engF engB ERRORS fuel maxRetries t0
            tvals y0 grads yOut0 gradOut0 lamdaOut0 stateB0 quadB0 quadOutB0
          = some (.ok (nanFill lamdaOut0, nanFill gradOut0)))
    ∧ (∀ run tLast e,
        AdjointSolver.solve_forward engF ERRORS fuel t0 tvals y0 yOut0
          = some run →
        run.err = none → tvals.getLast? = some tLast →
        AdjointSolver.solve_backward engB ERRORS tLast t0 tvals grads none none
            maxRetries stateB0 quadB0 quadOutB0 = .error (.solver e) →
        SolveODEAdjointBackward.perform engF engB ERRORS fuel maxRetries t0
            tvals y0 grads yOut0 gradOut0 lamdaOut0 stateB0 quadB0 quadOutB0
          = some (.ok (nanFill lamdaOut0, nanFill gradOut0)))
    ∧ (∀ buf : List ℚ, ∀ v ∈ nanFill buf, v = none)
    ∧ (∀ buf : List (List ℚ), ∀ row ∈ nanFill2 buf, ∀ v ∈ row, v = none) := by
  refine ⟨?_, ?_, ?_, ?_, ?_⟩
  · intro run e hrun herr
    simp [SolveODEAdjoint.perform, hrun, herr]
  · intro run e hrun herr
    simp [SolveODEAdjointBackward.perform, hrun, herr]
  · intro run tLast e hrun hok hlast hberr
    simp [SolveODEAdjointBackward.perform, hrun, hok, hlast, hberr]
  · intro buf v hv
    simp only [nanFill] at hv
    rcases List.mem_map.mp hv with ⟨a, _, ha⟩
    exact ha.symm
  · intro buf row hrow v hv
    simp only [nanFill2] at hrow
    rcases List.mem_map.mp hrow with ⟨r0, _, hr0⟩
    rw [← hr0] at hv
    rcases List.mem_map.mp hv with ⟨a, _, ha⟩
    exact ha.symm

/-- Claim C2 witness: with an engine whose forward pass fails fatally, the
forward op's output is entirely NaN-filled, and the backward op's two
outputs are entirely NaN-filled, both calls returning normally. -/
theorem c2_nan_poisoning_witness :
    SolveODEAdjoint.perform engBad (fun _ => "E") 1 0 [3] [1] [[5]]
      = some [[none]]
    ∧ SolveODEAdjointBackward.perform engBad engAllTmw (fun _ => "E") 1 3 0 [3]
        [1] [[1]] [[5]] [0, 0] [0] [0] [0] [0]
      = some (.ok ([none], [none, none])) := by
  have h := c2_nan_poisoning engBad engAllTmw (fun _ => "E") 1 3 0 [3] [1]
    [[1]] [[5]] [0, 0] [0] [0] [0] [0]
  exact ⟨h.1 ⟨some (.badReturnCode "E" (-20)), [[5]], [8],
      [FEvent.reinit 0 [1], FEvent.adjReinit, FEvent.step 3]⟩
      (.badReturnCode "E" (-20)) (by rfl) rfl,
    h.2.1 ⟨some (.badReturnCode "E" (-20)), [[5]], [8],
      [FEvent.reinit 0 [1], FEvent.adjReinit, FEvent.step 3]⟩
      (.badReturnCode "E" (-20)) (by rfl) rfl⟩

/-- Claim C5: for a completed adjoint solve, the y0 gradient
SolveODEAdjoint.grad hands to the caller is the elementwise negation of the
adjoint state accumulated at the end of the backward pass, while the
backward pass itself outputs that adjoint state un-negated: lamda_out is
the final running adjoint buffer (second conjunct) and the backward op
returns it as-is (third conjunct). -/
theorem c5_grad_negation (engF : FEng) (engB : BEng) (ERRORS : Int → String)
    (fuel maxRetries : Nat) (t0 : ℚ) (tvals : List ℚ) (y0 : List ℚ)
    (grads : List (List ℚ)) (yOut0 : List (List ℚ))
    (gradOut0 lamdaOut0 stateB0 quadB0 quadOutB0 : List ℚ)
    (run : AdjFRun) (st : BST) (tLast : ℚ)
    (hf : AdjointSolver.solve_forward engF ERRORS fuel t0 tvals y0 yOut0
        = some run)
    (hok : run.err = none)
    (hlast : tvals.getLast? = some tLast)
    (hb : AdjointSolver.solve_backward engB ERRORS tLast t0 tvals grads none
        none maxRetries stateB0 quadB0 quadOutB0 = .ok st) :
    SolveODEAdjoint.grad engF engB ERRORS fuel maxRetries t0 tvals y0 grads
        yOut0 gradOut0 lamdaOut0 stateB0 quadB0 quadOutB0
      = some (.ok (st.lamda.map (fun x => some (-x)), liftVals st.gradOut))
    ∧ st.lamdaOut = st.lamda
    ∧ SolveODEAdjointBackward.perform engF engB ERRORS fuel maxRetries t0
        tvals y0 grads yOut0 gradOut0 lamdaOut0 stateB0 quadB0 quadOutB0
      = some (.ok (liftVals st.lamdaOut, liftVals st.gradOut)) := by
  have hperf : SolveODEAdjointBackward.perform engF engB ERRORS fuel maxRetries
      t0 tvals y0 grads yOut0 gradOut0 lamdaOut0 stateB0 quadB0 quadOutB0
      = some (.ok (liftVals st.lamdaOut, liftVals st.gradOut)) := by
    simp [SolveODEAdjointBackward.perform, hf, hok, hlast, hb]
  refine ⟨?_, rfl, hperf⟩
  simp only [SolveODEAdjoint.grad, hperf, Option.map_some', Except.map,
    Option.some.injEq, Except.ok.injEq, Prod.mk.injEq]
  constructor
  · simp [liftVals, BST.lamdaOut, List.map_map, Function.comp]
  · trivial

/-- Final state of the concrete backward solve used in the C5 witness. -/
def stC5 : BST :=
  ⟨[2], [3], [3], 1, none, none,
    [BEvent.zeroBuffers, BEvent.reinitB 1 [-2], BEvent.quadReinitB [0],
      BEvent.stepB 0, BEvent.getB, BEvent.getQuadB]⟩

/-- Claim C5 witness: on a concrete completed adjoint solve whose final
running adjoint state is [2] and final quadrature is [3], the wrapper
returns the y0 gradient [-2] (the negation) and the parameter gradient
[3]. -/
theorem c5_grad_negation_witness :
    SolveODEAdjoint.grad engC4 engContract (fun _ => "") 2 3 0 [1] [1] [[2]]
        [[5]] [0] [0] [0] [0] [0]
      = some (.ok ([some (-2)], [some 3])) := by
  have h := c5_grad_negation engC4 engContract (fun _ => "") 2 3 0 [1] [1]
    [[2]] [[5]] [0] [0] [0] [0] [0]
    ⟨none, [[7]], [7], [FEvent.reinit 0 [1], FEvent.adjReinit, FEvent.step 1]⟩
    stC5 1 (by rfl) rfl rfl
    (by norm_num [AdjointSolver.solve_backward, mkPairs, mkTs, runPairs,
      processInterval, cvodeBLoop, engContract, stC5, TOO_MUCH_WORK, setNeg])
  exact h.1

/-- The stepping while-loop only appends to the event log. -/
theorem stepLoop_events_append (eng : FEng) (ERRORS : Int → String) (t : ℚ) :
    ∀ fuel k evs res, stepLoop eng ERRORS t fuel k evs = some res →
      ∃ ex, res.evs = evs ++ ex := by
  intro fuel
  induction fuel with
  | zero => intro k evs res h; simp [stepLoop] at h
  | succ n ih =>
    intro k evs res h
    simp only [stepLoop] at h
    by_cases h1 : (eng k).code = TOO_MUCH_WORK
    · rw [if_pos h1] at h
      obtain ⟨ex, hex⟩ := ih (k + 1) (evs ++ [FEvent.step t]) res h
      exact ⟨[FEvent.step t] ++ ex, by rw [hex, List.append_assoc]⟩
    · rw [if_neg h1] at h
      by_cases h2 : (eng k).code = 0
      · rw [if_pos h2] at h
        simp only [Option.some.injEq] at h
        subst h
        exact ⟨[FEvent.step t], rfl⟩
      · rw [if_neg h2] at h
        simp only [Option.some.injEq] at h
        subst h
        exact ⟨[FEvent.step t], rfl⟩

/-- The output-time loop only appends to the event log and never changes
the lengths of the two output buffers (every write is an in-place row
update). -/
theorem runTimes_shape (eng : FEng) (ERRORS : Int → String)
    (fuel : Nat) (cs : Bool) (t0 : ℚ) (y0 : List ℚ) (s0 : List (List ℚ)) :
    ∀ tv i s out e0, runTimes eng ERRORS fuel cs t0 y0 s0 tv i s = some (out, e0) →
      (∃ ex, out.events = s.events ++ ex)
      ∧ out.yOut.length = s.yOut.length
      ∧ out.sensOut.length = s.sensOut.length := by
  intro tv
  induction tv with
  | nil =>
    intro i s out e0 h
    simp only [runTimes, Option.some.injEq, Prod.mk.injEq] at h
    rw [← h.1]
    exact ⟨⟨[], by simp⟩, rfl, rfl⟩
  | cons t rest ih =>
    intro i s out e0 h
    by_cases hte : t = t0
    · simp only [runTimes, if_pos hte] at h
      obtain ⟨⟨ex, hex⟩, hy, hs⟩ := ih (i + 1) _ out e0 h
      refine ⟨⟨ex, hex⟩, ?_, ?_⟩
      · rw [hy]; simp
      · rw [hs]; cases cs <;> simp
    · cases hsl : stepLoop eng ERRORS t fuel s.k s.events with
      | none => simp [runTimes, hte, hsl] at h
      | some sr =>
        cases sr with
        | err e r k' evs' =>
          simp only [runTimes, if_neg hte, hsl, Option.some.injEq,
            Prod.mk.injEq] at h
          rw [← h.1]
          obtain ⟨ex, hex⟩ := stepLoop_events_append eng ERRORS t fuel s.k
            s.events _ hsl
          exact ⟨⟨ex, hex⟩, rfl, rfl⟩
        | ok r k' evs' =>
          simp only [runTimes, if_neg hte, hsl] at h
          obtain ⟨ex0, hex0⟩ := stepLoop_events_append eng ERRORS t fuel s.k
            s.events _ hsl
          simp only [StepRes.evs] at hex0
          cases cs with
          | false =>
            simp only [Bool.false_eq_true, if_false] at h
            obtain ⟨⟨ex, hex⟩, hy, hs⟩ := ih (i + 1) _ out e0 h
            refine ⟨⟨ex0 ++ ex, ?_⟩, ?_, ?_⟩
            · rw [hex]
              simp only [hex0, List.append_assoc]
            · rw [hy]; simp
            · rw [hs]
          | true =>
            simp only [if_true] at h
            obtain ⟨⟨ex, hex⟩, hy, hs⟩ := ih (i + 1) _ out e0 h
            refine ⟨⟨ex0 ++ [FEvent.getSens] ++ ex, ?_⟩, ?_, ?_⟩
            · rw [hex]
              simp only [hex0, List.append_assoc]
            · rw [hy]; simp
            · rw [hs]; simp

/-- Claim C8: a forward-sensitivity solve (Solver.solve with
compute_sens=True and sens0/sens_out supplied) raises no ValueError; its
first two engine actions reinitialize the state to (t0, y0) and the
sensitivity blocks to exactly sens0; and it fills the state trajectory and
the sensitivity tensor as a pair of buffers indexed by the same time grid
(both keep their allocated per-time length; a stepped time writes the state
and the same call's sensitivity read-back at the same row, and a t == t0
time writes y0 and sens0 at the same row). -/
theorem c8_forward_sensitivity (eng : FEng) (ERRORS : Int → String)
    (fuel : Nat) (t0 : ℚ) (tvals : List ℚ) (y0 : List ℚ)
    (sens0 : List (List ℚ)) (yOut0 : List (List ℚ))
    (sensOut0 : List (List (List ℚ)))
    (stateBuf0 : List ℚ) (sensBufs0 : List (List ℚ)) :
    (∀ run, Solver.solve eng ERRORS fuel true t0 tvals y0 yOut0 (some sens0)
        (some sensOut0) stateBuf0 sensBufs0 = some run →
      run.err ≠ some PyErr.valueError
      ∧ run.events.take 2 = [FEvent.reinit t0 y0, FEvent.sensReinit sens0]
      ∧ run.yOut.length = yOut0.length
      ∧ run.sensOut.length = sensOut0.length)
    ∧ (∀ t : ℚ, t ≠ t0 → (eng 0).code = 0 → 1 ≤ fuel →
        Solver.solve eng ERRORS fuel true t0 [t] y0 yOut0 (some sens0)
          (some sensOut0) stateBuf0 sensBufs0
        = some ⟨none, yOut0.set 0 (eng 0).y, sensOut0.set 0 (eng 0).sens,
            (eng 0).y, (eng 0).sens,
            [FEvent.reinit t0 y0, FEvent.sensReinit sens0, FEvent.step t,
              FEvent.getSens]⟩)
    ∧ Solver.solve eng ERRORS fuel true t0 [t0] y0 yOut0 (some sens0)
          (some sensOut0) stateBuf0 sensBufs0
        = some ⟨none, yOut0.set 0 y0, sensOut0.set 0 sens0, y0, sens0,
            [FEvent.reinit t0 y0, FEvent.sensReinit sens0]⟩ := by
  refine ⟨?_, ?_, ?_⟩
  · intro run hrun
    simp only [Solver.solve] at hrun
    rw [if_neg (by simp)] at hrun
    simp only [Option.getD_some, if_true] at hrun
    cases hrt : runTimes eng ERRORS fuel true t0 y0 sens0 tvals 0
        ⟨yOut0, sensOut0, y0, sens0, 0,
          [FEvent.reinit t0 y0, FEvent.sensReinit sens0]⟩ with
    | none =>
      rw [hrt] at hrun
      exact Option.noConfusion hrun
    | some pr =>
      obtain ⟨s, e0⟩ := pr
      rw [hrt] at hrun
      obtain ⟨⟨ex, hex⟩, hy, hs⟩ := runTimes_shape eng ERRORS fuel true t0 y0
        sens0 tvals 0 _ s e0 hrt
      cases e0 with
      | none =>
        simp only [Option.some.injEq] at hrun
        subst hrun
        refine ⟨by simp, ?_, hy, hs⟩
        rw [hex]
        rfl
      | some e =>
        simp only [Option.some.injEq] at hrun
        subst hrun
        refine ⟨by simp, ?_, hy, hs⟩
        rw [hex]
        rfl
  · intro t hne hc hfuel
    obtain ⟨f1, hf1⟩ : ∃ f1, fuel = f1 + 1 := ⟨fuel - 1, by omega⟩
    subst hf1
    simp [Solver.solve, runTimes, stepLoop, hne, hc, TOO_MUCH_WORK]
  · simp [Solver.solve, runTimes]

/-- Claim C8 witness: a concrete forward-sensitivity solve on one output
time reinitializes state and sensitivities, then returns the trajectory row
and the sensitivity row read back from the same engine call. -/
theorem c8_forward_sensitivity_witness :
    Solver.solve engC4 (fun _ => "") 1 true 0 [2] [1] [[5]] (some [[4]])
        (some [[[6]]]) [0] [[0]]
      = some ⟨none, [[7]], [[[9]]], [7], [[9]],
          [FEvent.reinit 0 [1], FEvent.sensReinit [[4]], FEvent.step 2,
            FEvent.getSens]⟩ := by
  have h := c8_forward_sensitivity engC4 (fun _ => "") 1 0 [2] [1] [[4]] [[5]]
    [[[6]]] [0] [[0]]
  exact h.2.1 2 (by norm_num) rfl (by omega)
